import Mathlib

/-!
Verification development for the streaming markdown renderer of the
`llm-cli` terminal chat client (`src/streaming_buffer.rs`, with the
line-level formatter wrapper from `src/ui.rs`).

The Rust code is shallowly embedded: `StreamingBuffer` becomes a Lean
structure, each method becomes a pure function returning the updated
state, and the three external display collaborators (termimad line
rendering, syntect code highlighting, tabled grid rendering) are
abstracted as a `Renderers` record of opaque string transforms, exactly
as the design document treats them (opaque formatted strings).

Rust `str` operations are modelled by executable helpers over `String.data`
(`char` lists); Rust's Unicode whitespace trimming is modelled by ASCII
whitespace, which is what the buffered chat text contains.
-/

namespace LlmCli

/-- ASCII whitespace test, modelling Rust `char::is_whitespace` on the
character set relevant here. -/
def isWS (c : Char) : Bool := c == ' ' || c == '\t' || c == '\n' || c == '\r'

/-- Rust `str::trim_start` (ASCII). -/
def strTrimLeft (s : String) : String := ⟨s.data.dropWhile isWS⟩

/-- Rust `str::trim_end` (ASCII). -/
def strTrimRight (s : String) : String := ⟨(s.data.reverse.dropWhile isWS).reverse⟩

/-- Rust `str::trim` (ASCII). -/
def strTrim (s : String) : String := strTrimRight (strTrimLeft s)

/-- Rust `str::starts_with`. -/
def strStartsWith (s p : String) : Bool := p.data.isPrefixOf s.data

/-- Rust `str::ends_with`. -/
def strEndsWith (s p : String) : Bool := p.data.isSuffixOf s.data

/-- Rust `str::contains(char)`. -/
def strContainsChar (s : String) (c : Char) : Bool := s.data.contains c

/-- Drop the first `n` characters (used for `strip_prefix("```")`). -/
def strDrop (s : String) (n : Nat) : String := ⟨s.data.drop n⟩

/-- Rust `str::trim_start_matches('|')`. -/
def trimStartPipes (s : String) : String := ⟨s.data.dropWhile (· == '|')⟩

/-- Rust `str::trim_end_matches('|')`. -/
def trimEndPipes (s : String) : String := ⟨(s.data.reverse.dropWhile (· == '|')).reverse⟩

/-- Rust `str::split('|')` (on a pipe-free accumulator; `""` splits to `[""]`,
matching Rust's splitter). -/
def splitOnPipeAux : List Char → List Char → List String
  | [], acc => [⟨acc.reverse⟩]
  | c :: rest, acc =>
    if c = '|' then ⟨acc.reverse⟩ :: splitOnPipeAux rest []
    else splitOnPipeAux rest (c :: acc)

/-- Rust `str::split('|')`. -/
def splitOnPipe (s : String) : List String := splitOnPipeAux s.data []

/-- Rust `[String]::join(sep)`. -/
def joinSep (sep : String) : List String → String
  | [] => ""
  | [x] => x
  | x :: xs => x ++ sep ++ joinSep sep xs

/-- Concatenation of a list of strings. -/
def concatStrs : List String → String
  | [] => ""
  | s :: ss => s ++ concatStrs ss

/-- The line-extraction loop of `process_chunk` (`while let Some(newline_pos) =
self.display_buffer.find('\n')`): split a character stream into the complete
(newline-terminated, newline-stripped) lines and the trailing remainder. -/
def splitChars : List Char → List (List Char) × List Char
  | [] => ([], [])
  | c :: rest =>
    if c = '\n' then
      ([] :: (splitChars rest).1, (splitChars rest).2)
    else
      match splitChars rest with
      | ([], r) => ([], c :: r)
      | (l :: ls, r) => ((c :: l) :: ls, r)

/-- String-level wrapper for `splitChars`: complete lines plus remainder. -/
def splitNewlines (s : String) : List String × String :=
  ((splitChars s.data).1.map (fun l => (⟨l⟩ : String)), ⟨(splitChars s.data).2⟩)

/-- The external display collaborators consumed by the streaming core
(§6 of the design): the termimad single-line renderer used inside
`ui::process_markdown_line`, the syntect highlighter
`ui::highlight_code_block`, and the tabled grid renderer used by
`StreamingBuffer::render_table`.  All are opaque display transforms. -/
structure Renderers where
  render_mad : String → String
  highlight_code_block : String → String → String
  render_table : List (List String) → String

/-- `ui::process_markdown_line` (src/ui.rs): the line-level markdown
formatter.  The termimad rendering step is the opaque `render_mad`; the
wrapper around it (blank-line shortcut, two-space indent, trailing
newline) is translated from the source.  (The `is_list_item` local in the
source is computed but never used, so it is omitted.) -/
def process_markdown_line (r : Renderers) (line : String) : String :=
  if strTrim line = "" then "\n"
  else
    let output := r.render_mad line
    if output = "" then "\n" else "  " ++ output ++ "\n"

/-- The `StreamingBuffer` struct (src/streaming_buffer.rs, lines 4-19). -/
structure StreamingBuffer where
  current_line : String
  in_table : Bool
  table_buffer : List String
  in_code_block : Bool
  code_block_language : String
  code_block_buffer : List String
  display_buffer : String
deriving DecidableEq

/-- `StreamingBuffer::new`. -/
def StreamingBuffer.new : StreamingBuffer :=
  { current_line := ""
    in_table := false
    table_buffer := []
    in_code_block := false
    code_block_language := ""
    code_block_buffer := []
    display_buffer := "" }

/-- `StreamingBuffer::is_table_row` (lines 173-176). -/
def is_table_row (line : String) : Bool :=
  let trimmed := strTrim line
  strStartsWith trimmed "|" && strEndsWith trimmed "|" && strContainsChar trimmed '|'

/-- `StreamingBuffer::looks_like_table_start` (lines 179-181). -/
def looks_like_table_start (s : String) : Bool :=
  strStartsWith (strTrim s) "|"

/-- `StreamingBuffer::is_table_separator` (lines 184-197). -/
def is_table_separator (line : String) : Bool :=
  let trimmed := strTrim line
  if !is_table_row trimmed then false
  else
    let content := trimEndPipes (trimStartPipes trimmed)
    (splitOnPipe content).all (fun cell =>
      (strTrim cell).data.all (fun ch => ch == '-' || ch == ':' || ch == ' ') &&
      strContainsChar (strTrim cell) '-')

/-- Cell parsing of one table row inside `parse_table_buffer` (lines 238-244):
strip outer pipes from the trimmed row, split on interior pipes, trim each
cell. -/
def parse_row_cells (line : String) : List String :=
  (splitOnPipe (trimEndPipes (trimStartPipes (strTrim line)))).map strTrim

/-- Separator-row test in the words of the specification (§4.3): after
stripping the outer pipes and splitting on interior pipes, every cell
consists only of dashes, colons, and spaces, and contains at least one
dash.  Used to compare `is_table_separator` against the spec. -/
def separator_spec (line : String) : Bool :=
  (splitOnPipe (trimEndPipes (trimStartPipes (strTrim line)))).all (fun cell =>
    (strTrim cell).data.all (fun ch => ch == '-' || ch == ':' || ch == ' ') &&
    strContainsChar (strTrim cell) '-')

/-- List-level right trim, used to reason about `strTrimRight`. -/
def listRTrim (p : Char → Bool) (l : List Char) : List Char :=
  (l.reverse.dropWhile p).reverse

/-- `StreamingBuffer::parse_table_buffer` (lines 220-256), as a function of
the table row log; returns the parsed grid (if any) and the updated log.
The `< 2` early return leaves the log untouched; the other paths clear it. -/
def parse_table_buffer (buf : List String) : Option (List (List String)) × List String :=
  if buf.length < 2 then (none, buf)
  else
    let data := (buf.filter (fun l => is_table_row l && !is_table_separator l)).map parse_row_cells
    if data.isEmpty then (none, []) else (some data, [])

/-- `StreamingBuffer::format_buffered_table` (lines 199-217), as a function of
the table row log; returns the special output and the updated (always
emptied) log.  On parse failure the accumulated lines are joined with
newlines and the log cleared. -/
def format_buffered_table (r : Renderers) (buf : List String) : String × List String :=
  if buf.isEmpty then ("", buf)
  else
    let pr := parse_table_buffer buf
    match pr.1 with
    | some data => (r.render_table data, pr.2)
    | none => (joinSep "\n" pr.2, [])

/-- `StreamingBuffer::process_complete_line` (lines 118-170): returns
(immediate output, optional special output, updated state). -/
def process_complete_line (r : Renderers) (st : StreamingBuffer) (line : String) :
    String × Option String × StreamingBuffer :=
  if strStartsWith (strTrim line) "```" then
    if !st.in_code_block then
      ("", none,
        { st with
          in_code_block := true
          code_block_language :=
            strTrim (if strStartsWith (strTrim line) "```" then strDrop (strTrim line) 3 else "")
          code_block_buffer := [] })
    else
      let code := joinSep "\n" st.code_block_buffer
      let lang := if st.code_block_language = "" then "text" else st.code_block_language
      ("", some (r.highlight_code_block code lang),
        { st with in_code_block := false, code_block_buffer := [], code_block_language := "" })
  else if st.in_code_block then
    ("", none, { st with code_block_buffer := st.code_block_buffer ++ [line] })
  else if is_table_row line then
    let st1 := if !st.in_table then { st with in_table := true, table_buffer := [] } else st
    ("", none, { st1 with table_buffer := st1.table_buffer ++ [line] })
  else if st.in_table then
    let pr := format_buffered_table r st.table_buffer
    (line, some pr.1, { st with in_table := false, table_buffer := pr.2 })
  else
    (process_markdown_line r line, none, st)

/-- The per-line loop of `process_chunk` (lines 50-74): each complete line is
prefixed with the pending partial line (which is then cleared), fed through
`process_complete_line`, its immediate output appended and the latest special
output retained. -/
def process_lines (r : Renderers) :
    StreamingBuffer → List String → String → Option String →
    String × Option String × StreamingBuffer
  | st, [], out, tbl => (out, tbl, st)
  | st, l :: ls, out, tbl =>
    let complete := st.current_line ++ l
    let step := process_complete_line r { st with current_line := "" } complete
    process_lines r step.2.2 ls (out ++ step.1)
      (match step.2.1 with | some x => some x | none => tbl)

/-- The partial-line handling at the end of `process_chunk` (lines 76-107):
given the post-loop state, the remainder and the output so far, either emit
the remainder immediately (Normal mode, not table-like, not fence-like) or
retain it in `current_line`. -/
def handle_remainder (st : StreamingBuffer) (rem out : String) :
    String × StreamingBuffer :=
  if rem ≠ "" ∧ st.in_table = false ∧ st.in_code_block = false then
    let combined := st.current_line ++ rem
    if looks_like_table_start combined = false ∧ strStartsWith (strTrim combined) "```" = false then
      (out ++ st.current_line ++ rem, { st with current_line := "", display_buffer := "" })
    else
      (out, { st with current_line := combined, display_buffer := "" })
  else if rem ≠ "" ∧ (st.in_table = true ∨ st.in_code_block = true) then
    (out, { st with current_line := st.current_line ++ rem, display_buffer := "" })
  else
    (out, st)

/-- Result of one `process_chunk` call: the Rust return triple
`(text_to_display, formatted_special_content, is_buffering)` plus the
mutated receiver. -/
structure ChunkResult where
  output : String
  special : Option String
  buffering : Bool
  st : StreamingBuffer
deriving DecidableEq

/-- `StreamingBuffer::process_chunk` (lines 37-115). -/
def process_chunk (r : Renderers) (st : StreamingBuffer) (chunk : String) : ChunkResult :=
  let db := st.display_buffer ++ chunk
  let pr := splitNewlines db
  let step := process_lines r { st with display_buffer := "" } pr.1 "" none
  let fin := handle_remainder step.2.2 pr.2 step.1
  ⟨fin.1, step.2.1, fin.2.in_table || fin.2.in_code_block, fin.2⟩

/-- `StreamingBuffer::is_buffering_table` (lines 292-295). -/
def is_buffering_table (st : StreamingBuffer) : Bool := st.in_table

/-- `StreamingBuffer::is_buffering` (lines 297-300). -/
def is_buffering (st : StreamingBuffer) : Bool := st.in_table || st.in_code_block

/-- `StreamingBuffer::flush` (lines 302-342). -/
def flush (r : Renderers) (st : StreamingBuffer) : Option String × StreamingBuffer :=
  let p1 :=
    if st.current_line ≠ "" then
      (process_markdown_line r st.current_line, { st with current_line := "" })
    else (("" : String), st)
  let out1 := p1.1
  let st1 := p1.2
  let p2 :=
    if st1.in_code_block = true ∧ st1.code_block_buffer ≠ [] then
      let code := joinSep "\n" st1.code_block_buffer
      let lang := if st1.code_block_language = "" then "text" else st1.code_block_language
      (out1 ++ (if out1 ≠ "" then "\n" else "") ++ r.highlight_code_block code lang,
        { st1 with code_block_buffer := [], in_code_block := false })
    else (out1, st1)
  let out2 := p2.1
  let st2 := p2.2
  let p3 :=
    if st2.in_table = true ∧ st2.table_buffer ≠ [] then
      let pr := format_buffered_table r st2.table_buffer
      (out2 ++ (if out2 ≠ "" then "\n" else "") ++ pr.1, { st2 with table_buffer := pr.2 })
    else (out2, st2)
  (if p3.1 = "" then none else some p3.1, p3.2)

/-- Feed a list of fragments through `process_chunk` in order, concatenating
the display outputs and returning the final state. -/
def feed_all (r : Renderers) : StreamingBuffer → List String → String × StreamingBuffer
  | st, [] => ("", st)
  | st, c :: cs =>
    let res := process_chunk r st c
    let rest := feed_all r res.st cs
    (res.output ++ rest.1, rest.2)

/-- A concrete instantiation of the external renderers, used to evaluate the
model at concrete inputs.  `render_mad` is the identity, highlighting tags the
language, tables are joined with semicolons. -/
def idRenderers : Renderers :=
  { render_mad := fun s => s
    highlight_code_block := fun code lang => "<" ++ lang ++ ">" ++ code
    render_table := fun rows => joinSep "\n" (rows.map (joinSep "; ")) }

/-! ### Basic string lemmas -/

theorem str_data_append (a b : String) : (a ++ b).data = a.data ++ b.data := by
  cases a; cases b; rfl

theorem str_empty_append (s : String) : "" ++ s = s := by
  cases s; rfl

theorem str_append_empty (s : String) : s ++ "" = s := by
  apply String.ext; rw [str_data_append]; simp

theorem str_append_assoc (a b c : String) : a ++ b ++ c = a ++ (b ++ c) := by
  apply String.ext; simp [str_data_append]

theorem str_append_eq_empty (a b : String) : a ++ b = "" ↔ a = "" ∧ b = "" := by
  constructor
  · intro h
    have hd : a.data ++ b.data = [] := by
      have := congrArg String.data h
      rwa [str_data_append] at this
    rcases List.append_eq_nil.mp hd with ⟨h1, h2⟩
    exact ⟨String.ext h1, String.ext h2⟩
  · rintro ⟨rfl, rfl⟩; rfl

theorem startsWith_pipe_data {s : String} (h : strStartsWith s "|" = true) :
    ∃ t, s.data = '|' :: t := by
  unfold strStartsWith at h
  have hp : "|".data = ['|'] := rfl
  rw [hp] at h
  cases hd : s.data with
  | nil => rw [hd] at h; simp [List.isPrefixOf] at h
  | cons c cs =>
    rw [hd] at h
    simp [List.isPrefixOf] at h
    exact ⟨cs, by rw [h]⟩

theorem startsWith_pipe_not_fence {s : String} (h : strStartsWith s "|" = true) :
    strStartsWith s "```" = false := by
  obtain ⟨t, ht⟩ := startsWith_pipe_data h
  unfold strStartsWith
  have hf : "```".data = ['\u0060', '\u0060', '\u0060'] := rfl
  rw [ht, hf]
  simp [List.isPrefixOf]

theorem startsWith_pipe_contains {s : String} (h : strStartsWith s "|" = true) :
    strContainsChar s '|' = true := by
  obtain ⟨t, ht⟩ := startsWith_pipe_data h
  unfold strContainsChar
  rw [ht]
  simp

theorem pml_ne_empty (r : Renderers) (l : String) : process_markdown_line r l ≠ "" := by
  simp only [process_markdown_line]
  split
  · intro h; exact absurd (congrArg String.data h) (by decide)
  · split
    · intro h; exact absurd (congrArg String.data h) (by decide)
    · intro h
      rcases (str_append_eq_empty _ _).mp h with ⟨h1, -⟩
      rcases (str_append_eq_empty _ _).mp h1 with ⟨h2, -⟩
      exact absurd (congrArg String.data h2) (by decide)

/-! ### State record lemmas -/

theorem sb_eta_current_line (st : StreamingBuffer) (h : st.current_line = "") :
    ({ st with current_line := "" } : StreamingBuffer) = st := by
  cases st; simp_all

theorem sb_eta_display (st : StreamingBuffer) (h : st.display_buffer = "") :
    ({ st with display_buffer := "" } : StreamingBuffer) = st := by
  cases st; simp_all

/-! ### Table formatting lemmas -/

/-- The table row log is cleared unconditionally whenever
`format_buffered_table` runs. -/
theorem format_clears (r : Renderers) (buf : List String) :
    (format_buffered_table r buf).2 = [] := by
  by_cases he : buf.isEmpty = true
  · simp only [format_buffered_table, if_pos he]
    simpa using he
  · simp only [format_buffered_table, if_neg he]
    by_cases hl : buf.length < 2
    · simp [parse_table_buffer, hl]
    · simp only [parse_table_buffer, if_neg hl]
      generalize List.map parse_row_cells
        (List.filter (fun l => is_table_row l && !is_table_separator l) buf) = D
      by_cases hd : D.isEmpty = true
      · simp [hd]
      · simp [hd]

/-- With fewer than two buffered rows, `format_buffered_table` falls back to
the raw lines joined by newlines. -/
theorem format_short (r : Renderers) (buf : List String) (h : buf.length < 2) :
    (format_buffered_table r buf).1 = joinSep "\n" buf := by
  by_cases he : buf.isEmpty = true
  · simp only [format_buffered_table, if_pos he]
    simp [List.isEmpty_iff.mp he, joinSep]
  · simp only [format_buffered_table, if_neg he]
    simp [parse_table_buffer, h]

/-! ### Line splitting lemmas -/

theorem splitChars_append (xs ys : List Char) (h : (splitChars xs).2 = []) :
    splitChars (xs ++ ys) = ((splitChars xs).1 ++ (splitChars ys).1, (splitChars ys).2) := by
  induction xs with
  | nil => simp [splitChars]
  | cons c rest ih =>
    by_cases hc : c = '\n'
    · subst hc
      have h' : (splitChars rest).2 = [] := by simpa [splitChars] using h
      simp [splitChars, ih h']
    · rcases hr : splitChars rest with ⟨ls, rr⟩
      cases ls with
      | nil =>
        exfalso
        have hx : (splitChars (c :: rest)).2 = c :: rr := by simp [splitChars, hc, hr]
        rw [hx] at h
        simp at h
      | cons l ls2 =>
        have h2 : (splitChars rest).2 = [] := by
          have hx : (splitChars (c :: rest)).2 = rr := by simp [splitChars, hc, hr]
          rw [hx] at h
          simp [hr, h]
        simp [splitChars, hc, hr, ih h2]

theorem splitNewlines_append (a b : String) (h : (splitNewlines a).2 = "") :
    splitNewlines (a ++ b) =
      ((splitNewlines a).1 ++ (splitNewlines b).1, (splitNewlines b).2) := by
  have h2 : (splitChars a.data).2 = [] := by
    have := congrArg String.data h
    simpa [splitNewlines] using this
  simp [splitNewlines, str_data_append, splitChars_append a.data b.data h2]

theorem splitNewlines_empty : splitNewlines "" = ([], "") := rfl

/-! ### Concatenation lemmas -/

theorem concatStrs_append (xs ys : List String) :
    concatStrs (xs ++ ys) = concatStrs xs ++ concatStrs ys := by
  induction xs with
  | nil => simp [concatStrs, str_empty_append]
  | cons x xs ih => simp [concatStrs, ih, str_append_assoc]

theorem concatStrs_join (xss : List (List String)) :
    concatStrs xss.flatten = concatStrs (xss.map concatStrs) := by
  induction xss with
  | nil => rfl
  | cons xs xss ih => simp [concatStrs, concatStrs_append, ih]

/-! ### Ordinary-line processing (Normal mode, clean lines) -/

/-- A complete line whose trimmed content neither starts with a pipe nor with
a fence, processed outside any table or code block, goes through the
line-level markdown formatter and leaves the state unchanged. -/
theorem pcl_ordinary (r : Renderers) (st : StreamingBuffer) (l : String)
    (hpipe : strStartsWith (strTrim l) "|" = false)
    (hfence : strStartsWith (strTrim l) "```" = false)
    (ht : st.in_table = false) (hc : st.in_code_block = false) :
    process_complete_line r st l = (process_markdown_line r l, none, st) := by
  have hrow : is_table_row l = false := by
    simp [is_table_row, hpipe]
  simp [process_complete_line, hfence, hc, ht, hrow]

theorem process_lines_clean (r : Renderers) (st : StreamingBuffer) (ls : List String)
    (out : String) (tbl : Option String)
    (hcl : st.current_line = "") (ht : st.in_table = false) (hc : st.in_code_block = false)
    (hclean : ∀ l ∈ ls, strStartsWith (strTrim l) "|" = false ∧
      strStartsWith (strTrim l) "```" = false) :
    process_lines r st ls out tbl =
      (out ++ concatStrs (ls.map (process_markdown_line r)), tbl, st) := by
  induction ls generalizing out with
  | nil => simp [process_lines, concatStrs, str_append_empty]
  | cons l ls ih =>
    have hl := hclean l (by simp)
    have hrest : ∀ x ∈ ls, strStartsWith (strTrim x) "|" = false ∧
        strStartsWith (strTrim x) "```" = false :=
      fun x hx => hclean x (by simp [hx])
    simp only [process_lines]
    rw [sb_eta_current_line st hcl, hcl, str_empty_append]
    rw [pcl_ordinary r st l hl.1 hl.2 ht hc]
    simp only []
    rw [ih _ hrest]
    simp [concatStrs, str_append_assoc]

theorem process_chunk_clean (r : Renderers) (st : StreamingBuffer) (chunk : String)
    (hcl : st.current_line = "") (hdb : st.display_buffer = "")
    (ht : st.in_table = false) (hc : st.in_code_block = false)
    (hrem : (splitNewlines chunk).2 = "")
    (hclean : ∀ l ∈ (splitNewlines chunk).1, strStartsWith (strTrim l) "|" = false ∧
      strStartsWith (strTrim l) "```" = false) :
    process_chunk r st chunk =
      ⟨concatStrs ((splitNewlines chunk).1.map (process_markdown_line r)), none, false, st⟩ := by
  simp only [process_chunk]
  rw [hdb, str_empty_append, sb_eta_display st hdb]
  rw [process_lines_clean r st (splitNewlines chunk).1 "" none hcl ht hc hclean]
  simp only []
  rw [str_empty_append, hrem]
  simp [handle_remainder, ht, hc]

theorem feed_all_clean (r : Renderers) (st : StreamingBuffer) (frags : List String)
    (hcl : st.current_line = "") (hdb : st.display_buffer = "")
    (ht : st.in_table = false) (hc : st.in_code_block = false)
    (hrem : ∀ f ∈ frags, (splitNewlines f).2 = "")
    (hclean : ∀ f ∈ frags, ∀ l ∈ (splitNewlines f).1,
      strStartsWith (strTrim l) "|" = false ∧ strStartsWith (strTrim l) "```" = false) :
    feed_all r st frags =
      (concatStrs (frags.map (fun f =>
        concatStrs ((splitNewlines f).1.map (process_markdown_line r)))), st) := by
  induction frags with
  | nil => simp [feed_all, concatStrs]
  | cons f fs ih =>
    simp only [feed_all]
    rw [process_chunk_clean r st f hcl hdb ht hc (hrem f (by simp))
      (hclean f (by simp))]
    simp only []
    rw [ih (fun x hx => hrem x (by simp [hx])) (fun x hx => hclean x (by simp [hx]))]
    simp [concatStrs]

/-- `flush` on a state with nothing pending returns no output. -/
theorem flush_clean (r : Renderers) (st : StreamingBuffer)
    (hcl : st.current_line = "") (ht : st.in_table = false) (hc : st.in_code_block = false) :
    flush r st = (none, st) := by
  simp [flush, hcl, ht, hc]

theorem splitNewlines_concat (frags : List String)
    (h : ∀ f ∈ frags, (splitNewlines f).2 = "") :
    splitNewlines (concatStrs frags) =
      ((frags.map (fun f => (splitNewlines f).1)).flatten, "") := by
  induction frags with
  | nil => simp [concatStrs, splitNewlines_empty]
  | cons f fs ih =>
    simp only [concatStrs]
    rw [splitNewlines_append f (concatStrs fs) (h f (by simp))]
    rw [ih (fun x hx => h x (by simp [hx]))]
    simp

/-! ### Trim idempotence -/

theorem dropWhile_head_false (p : Char → Bool) (l : List Char) :
    ∀ c, (l.dropWhile p).head? = some c → p c = false := by
  induction l with
  | nil => intro c h; simp [List.dropWhile] at h
  | cons a as ih =>
    intro c h
    by_cases hp : p a = true
    · rw [List.dropWhile_cons_of_pos hp] at h
      exact ih c h
    · rw [List.dropWhile_cons_of_neg (by simpa using hp)] at h
      simp at h
      rw [← h]
      simpa using hp

theorem dropWhile_myIdem (p : Char → Bool) (l : List Char) :
    List.dropWhile p (List.dropWhile p l) = List.dropWhile p l := by
  induction l with
  | nil => rfl
  | cons a as ih =>
    by_cases hp : p a = true
    · rw [List.dropWhile_cons_of_pos hp, ih]
    · rw [List.dropWhile_cons_of_neg (by simpa using hp),
        List.dropWhile_cons_of_neg (by simpa using hp)]

theorem dropWhile_self_of_head (p : Char → Bool) (l : List Char)
    (h : ∀ c, l.head? = some c → p c = false) :
    List.dropWhile p l = l := by
  cases l with
  | nil => rfl
  | cons a as => rw [List.dropWhile_cons_of_neg (by simp [h a rfl])]

theorem rtrim_prefix (p : Char → Bool) (l : List Char) :
    listRTrim p l ++ (l.reverse.takeWhile p).reverse = l := by
  unfold listRTrim
  rw [← List.reverse_append, List.takeWhile_append_dropWhile, List.reverse_reverse]

theorem strTrim_idem (s : String) : strTrim (strTrim s) = strTrim s := by
  apply String.ext
  show ((((s.data.dropWhile isWS).reverse.dropWhile isWS).reverse.dropWhile
      isWS).reverse.dropWhile isWS).reverse =
    ((s.data.dropWhile isWS).reverse.dropWhile isWS).reverse
  set X := s.data.dropWhile isWS with hX
  set Y := (X.reverse.dropWhile isWS).reverse with hY
  have hstep1 : Y.dropWhile isWS = Y := by
    apply dropWhile_self_of_head
    intro c hc
    have hpre : Y ++ (X.reverse.takeWhile isWS).reverse = X := rtrim_prefix isWS X
    cases hYc : Y with
    | nil => rw [hYc] at hc; simp at hc
    | cons c0 y0 =>
      rw [hYc] at hc
      simp at hc
      have hXhead : X.head? = some c0 := by
        rw [← hpre, hYc]
        simp
      have := dropWhile_head_false isWS s.data c0 (by rw [← hX]; exact hXhead)
      rw [← hc]
      exact this
  rw [hstep1]
  have hYrev : Y.reverse = X.reverse.dropWhile isWS := by
    rw [hY, List.reverse_reverse]
  rw [hYrev, dropWhile_myIdem, ← hYrev, List.reverse_reverse]

theorem is_table_row_trim (l : String) : is_table_row (strTrim l) = is_table_row l := by
  simp [is_table_row, strTrim_idem]

/-- On a table row, the code's separator test agrees with the
specification's cell-wise description. -/
theorem sep_eq_spec (l : String) (h : is_table_row l = true) :
    is_table_separator l = separator_spec l := by
  have hrow : is_table_row (strTrim l) = true := by rw [is_table_row_trim]; exact h
  simp only [is_table_separator, separator_spec, hrow]
  simp

/-! ### Claim C1: mode exclusivity -/

/-- C1 (counterexample): feeding a table row and then a fence line from a
fresh buffer leaves BOTH `in_table` and `in_code_block` set, so the buffer
IS in table-buffering and code-block-buffering state at the same time,
contradicting the claimed exclusivity invariant. -/
theorem c1_counterexample :
    (process_chunk idRenderers StreamingBuffer.new "| a | b |\n```\n").st.in_table = true ∧
    (process_chunk idRenderers StreamingBuffer.new "| a | b |\n```\n").st.in_code_block = true := by
  decide

/-- C1 (amended): when a fence line arrives while a table is open (and no
code block is), the code block opens while the table stays open with its
row log intact — the two buffering states are simultaneously active, and
the table is NOT closed by the fence line. -/
theorem c1_claim (r : Renderers) (st : StreamingBuffer) (line : String)
    (ht : st.in_table = true) (hc : st.in_code_block = false)
    (hf : strStartsWith (strTrim line) "```" = true) :
    (process_complete_line r st line).2.2.in_table = true ∧
    (process_complete_line r st line).2.2.in_code_block = true ∧
    (process_complete_line r st line).2.2.table_buffer = st.table_buffer := by
  simp [process_complete_line, hf, hc, ht]

/-- C1 (witness): `c1_claim` at a concrete in-table state and fence line. -/
theorem c1_witness :
    (process_complete_line idRenderers
        ⟨"", true, ["| a |"], false, "", [], ""⟩ "```").2.2.in_table = true ∧
    (process_complete_line idRenderers
        ⟨"", true, ["| a |"], false, "", [], ""⟩ "```").2.2.in_code_block = true ∧
    (process_complete_line idRenderers
        ⟨"", true, ["| a |"], false, "", [], ""⟩ "```").2.2.table_buffer = ["| a |"] :=
  c1_claim idRenderers ⟨"", true, ["| a |"], false, "", [], ""⟩ "```" rfl rfl (by decide)

/-! ### Claim C2: the `is_buffering` return value -/

/-- C2 (counterexample): from a fresh buffer, a chunk opening a code fence
makes `process_chunk` return `true` as its third value although no table is
being buffered, contradicting the claim that the value is table-only. -/
theorem c2_counterexample :
    (process_chunk idRenderers StreamingBuffer.new "```rust\n").buffering = true ∧
    (process_chunk idRenderers StreamingBuffer.new "```rust\n").st.in_table = false := by
  decide

/-- C2 (amended): the third value returned by `process_chunk` is
`in_table || in_code_block` of the final state (so code-block buffering is
included, not excluded); the separate accessor `is_buffering_table` is the
table-only indicator; and a table-row line processed outside a code block
does leave the buffer in table mode. -/
theorem c2_claim (r : Renderers) (st : StreamingBuffer) (chunk line : String) :
    (process_chunk r st chunk).buffering =
      ((process_chunk r st chunk).st.in_table ||
        (process_chunk r st chunk).st.in_code_block) ∧
    is_buffering_table (process_chunk r st chunk).st =
      (process_chunk r st chunk).st.in_table ∧
    (st.in_code_block = false → is_table_row line = true →
      (process_complete_line r st line).2.2.in_table = true) := by
  refine ⟨rfl, rfl, ?_⟩
  intro hc hrow
  have hpipe : strStartsWith (strTrim line) "|" = true := by
    simp only [is_table_row, Bool.and_eq_true] at hrow
    exact hrow.1.1
  have hfence := startsWith_pipe_not_fence hpipe
  by_cases ht : st.in_table = true
  · simp [process_complete_line, hfence, hc, hrow, ht]
  · simp [process_complete_line, hfence, hc, hrow, ht]

/-- C2 (witness): `c2_claim` at a fresh buffer and a concrete table row. -/
theorem c2_witness :
    (process_complete_line idRenderers StreamingBuffer.new "| a | b |").2.2.in_table = true :=
  (c2_claim idRenderers StreamingBuffer.new "" "| a | b |").2.2 rfl (by decide)

/-! ### Claim C4: closing a table on a trailing line -/

/-- C4 (counterexample): the Ordinary trailing line "xyz" that closes a
table is emitted raw, not through the line-level markdown formatter
(which always indents and appends a newline), contradicting the claim. -/
theorem c4_counterexample :
    (process_chunk idRenderers StreamingBuffer.new "| a |\n| b |\nxyz\n").output = "xyz" ∧
    process_markdown_line idRenderers "xyz" = "  xyz\n" ∧
    ("xyz" : String) ≠ "  xyz\n" := by
  decide

/-- C4 (amended): when a non-table-row, non-fence line arrives while a table
is open, that call exits table mode, emits the rendered table as the special
output and emits the trailing line RAW (not through the markdown formatter)
on the same pass; a fence trailing line instead opens a code block without
closing the table and without any immediate output. -/
theorem c4_claim (r : Renderers) (st : StreamingBuffer) (line : String)
    (ht : st.in_table = true) (hc : st.in_code_block = false) :
    (is_table_row line = false → strStartsWith (strTrim line) "```" = false →
      process_complete_line r st line =
        (line, some (format_buffered_table r st.table_buffer).1,
          { st with
              in_table := false
              table_buffer := (format_buffered_table r st.table_buffer).2 })) ∧
    (strStartsWith (strTrim line) "```" = true →
      (process_complete_line r st line).1 = "" ∧
      (process_complete_line r st line).2.2.in_code_block = true ∧
      (process_complete_line r st line).2.2.in_table = true) := by
  constructor
  · intro hrow hf
    simp [process_complete_line, hf, hc, hrow, ht]
  · intro hf
    simp [process_complete_line, hf, hc, ht]

/-- C4 (witness): `c4_claim` at a concrete two-row table state with the
trailing line "xyz". -/
theorem c4_witness :
    process_complete_line idRenderers
        ⟨"", true, ["| a |", "| b |"], false, "", [], ""⟩ "xyz" =
      ("xyz", some (format_buffered_table idRenderers ["| a |", "| b |"]).1,
        ⟨"", false, (format_buffered_table idRenderers ["| a |", "| b |"]).2,
          false, "", [], ""⟩) :=
  (c4_claim idRenderers ⟨"", true, ["| a |", "| b |"], false, "", [], ""⟩ "xyz"
    rfl rfl).1 (by decide) (by decide)

/-! ### Claim C5: the table-row test -/

/-- C5 (counterexample): a line whose trimmed content is a single pipe (or a
double pipe) IS accepted as a table row by the code, contradicting the
claim that a pipe strictly between the outer two is required. -/
theorem c5_counterexample :
    is_table_row "|" = true ∧ is_table_row "||" = true := by
  decide

/-- C5 (amended): a line is a table row iff its trimmed content starts with
a pipe and ends with a pipe; the additional `contains('|')` conjunct in the
code is implied by the prefix condition, so no interior pipe is required —
in particular "|" and "||" are table rows. -/
theorem c5_claim (line : String) :
    is_table_row line =
      (strStartsWith (strTrim line) "|" && strEndsWith (strTrim line) "|") := by
  simp only [is_table_row]
  by_cases ha : strStartsWith (strTrim line) "|" = true
  · rw [startsWith_pipe_contains ha]
    simp
  · have ha' : strStartsWith (strTrim line) "|" = false := by
      simpa using ha
    simp [ha']

/-! ### Claim C6: short-table fallback and log clearing -/

/-- C6: if the table closes with fewer than two buffered rows the special
output is the raw lines joined by newlines (no rendered grid), and the
table row log is empty after every close. -/
theorem c6_claim (r : Renderers) (buf : List String) :
    (buf.length < 2 → (format_buffered_table r buf).1 = joinSep "\n" buf) ∧
    (format_buffered_table r buf).2 = [] :=
  ⟨fun h => format_short r buf h, format_clears r buf⟩

/-- C6 (witness): `c6_claim` at a single stray table row. -/
theorem c6_witness :
    (["| a |"] : List String).length < 2 ∧
    (format_buffered_table idRenderers ["| a |"]).1 = joinSep "\n" ["| a |"] ∧
    (format_buffered_table idRenderers ["| a |"]).2 = [] :=
  ⟨by decide, (c6_claim idRenderers ["| a |"]).1 (by decide),
    (c6_claim idRenderers ["| a |"]).2⟩

/-! ### Claim C7: separator recognition and parsing -/

/-- C7: on a table row the code's separator test agrees with the spec's
cell-wise description (`separator_spec`), and for a log of buffered table
rows the parser gates on the RAW row count (separators included), then
drops separator rows and splits the rest into trimmed cells. -/
theorem c7_claim (line : String) (buf : List String)
    (hrow : ∀ l ∈ buf, is_table_row l = true) :
    (is_table_row line = true → is_table_separator line = separator_spec line) ∧
    (parse_table_buffer buf).1 =
      (if buf.length < 2 then none
       else
         if ((buf.filter (fun l => !separator_spec l)).map parse_row_cells).isEmpty then none
         else some ((buf.filter (fun l => !separator_spec l)).map parse_row_cells)) := by
  constructor
  · exact fun h => sep_eq_spec line h
  · simp only [parse_table_buffer]
    by_cases hl : buf.length < 2
    · simp [hl]
    · have hf : buf.filter (fun l => is_table_row l && !is_table_separator l) =
          buf.filter (fun l => !separator_spec l) := by
        apply List.filter_congr
        intro x hx
        rw [hrow x hx, sep_eq_spec x (hrow x hx)]
        simp
      simp only [if_neg hl, hf]
      generalize List.map parse_row_cells (List.filter (fun l => !separator_spec l) buf) = G
      by_cases hg : G.isEmpty = true <;> simp [hg]

/-- C7 (witness): `c7_claim` on a concrete header/separator/data log. -/
theorem c7_witness :
    (parse_table_buffer ["| a | b |", "| --- | --- |", "| 1 | 2 |"]).1 =
      (if (["| a | b |", "| --- | --- |", "| 1 | 2 |"] : List String).length < 2 then none
       else
         if (((["| a | b |", "| --- | --- |", "| 1 | 2 |"] : List String).filter
              (fun l => !separator_spec l)).map parse_row_cells).isEmpty then none
         else some (((["| a | b |", "| --- | --- |", "| 1 | 2 |"] : List String).filter
              (fun l => !separator_spec l)).map parse_row_cells)) :=
  (c7_claim "| --- |" ["| a | b |", "| --- | --- |", "| 1 | 2 |"] (by decide)).2

/-! ### Claim C8: the look-ahead heuristic -/

/-- C8: a non-empty remaining partial line is emitted immediately iff the
mode is Normal and the combined partial content neither looks like a table
start nor starts (trimmed) with a fence; otherwise (possible table/fence
start, or any buffering mode) it is retained in the pending line without
emission. -/
theorem c8_claim (st : StreamingBuffer) (rem out : String) (hrem : rem ≠ "") :
    (st.in_table = false → st.in_code_block = false →
      (looks_like_table_start (st.current_line ++ rem) = false →
        strStartsWith (strTrim (st.current_line ++ rem)) "```" = false →
        handle_remainder st rem out =
          (out ++ st.current_line ++ rem,
            { st with current_line := "", display_buffer := "" })) ∧
      ((looks_like_table_start (st.current_line ++ rem) = true ∨
        strStartsWith (strTrim (st.current_line ++ rem)) "```" = true) →
        handle_remainder st rem out =
          (out, { st with
                    current_line := st.current_line ++ rem
                    display_buffer := "" }))) ∧
    (st.in_table = true ∨ st.in_code_block = true →
      handle_remainder st rem out =
        (out, { st with
                  current_line := st.current_line ++ rem
                  display_buffer := "" })) := by
  constructor
  · intro ht hc
    constructor
    · intro h1 h2
      simp only [handle_remainder]
      rw [if_pos ⟨hrem, ht, hc⟩, if_pos ⟨h1, h2⟩]
    · intro hor
      simp only [handle_remainder]
      rw [if_pos ⟨hrem, ht, hc⟩, if_neg]
      rcases hor with h | h
      · intro hcontra
        rw [h] at hcontra
        exact absurd hcontra.1 (by simp)
      · intro hcontra
        rw [h] at hcontra
        exact absurd hcontra.2 (by simp)
  · intro hor
    simp only [handle_remainder]
    rw [if_neg, if_pos ⟨hrem, hor⟩]
    intro hcontra
    rcases hor with h | h
    · rw [h] at hcontra
      exact absurd hcontra.2.1 (by simp)
    · rw [h] at hcontra
      exact absurd hcontra.2.2 (by simp)

/-- C8 (witness): `c8_claim` with a fresh buffer and the partial line
"hello" — emitted immediately. -/
theorem c8_witness :
    handle_remainder StreamingBuffer.new "hello" "" =
      ("" ++ "" ++ "hello",
        { StreamingBuffer.new with current_line := "", display_buffer := "" }) :=
  ((c8_claim StreamingBuffer.new "hello" "" (by decide)).1 rfl rfl).1
    (by decide) (by decide)

/-! ### Claim C9: flush ordering and the None condition -/

/-- C9 (counterexample): a buffer holding an open table of two separator-only
rows has pending buffered rows, yet `flush` returns `none` — its formatted
fallback is empty because the row log is cleared before the join —
contradicting "returns None exactly when nothing is pending". -/
theorem c9_counterexample :
    (process_chunk idRenderers StreamingBuffer.new "|-|\n|-|\n").st.in_table = true ∧
    (process_chunk idRenderers StreamingBuffer.new "|-|\n|-|\n").st.table_buffer ≠ [] ∧
    (flush idRenderers (process_chunk idRenderers StreamingBuffer.new "|-|\n|-|\n").st).1 =
      none := by
  decide

/-- C9 (amended): `flush` emits in order the retained partial line through
the line-level formatter, then an open code block via the highlighter, then
an open table; it returns `none` iff the emitted text is empty, i.e. no
retained partial line, no open code block with content, and no open table
whose buffered rows format to non-empty text (an open table whose rows are
all separators formats to the empty string, so rows can be pending). -/
theorem c9_claim (r : Renderers) (st : StreamingBuffer)
    (hh : ∀ c l, r.highlight_code_block c l ≠ "") :
    ((flush r st).1 = none ↔
      st.current_line = "" ∧
      (st.in_code_block = false ∨ st.code_block_buffer = []) ∧
      (st.in_table = false ∨ st.table_buffer = [] ∨
        (format_buffered_table r st.table_buffer).1 = "")) ∧
    (st.current_line ≠ "" → st.in_code_block = true → st.code_block_buffer ≠ [] →
      st.in_table = true → st.table_buffer ≠ [] →
      (flush r st).1 = some (process_markdown_line r st.current_line ++ "\n" ++
        r.highlight_code_block (joinSep "\n" st.code_block_buffer)
          (if st.code_block_language = "" then "text" else st.code_block_language) ++ "\n" ++
        (format_buffered_table r st.table_buffer).1)) := by
  have hhl := hh (joinSep "\n" st.code_block_buffer)
    (if st.code_block_language = "" then "text" else st.code_block_language)
  have hp := pml_ne_empty r st.current_line
  constructor
  · cases hit : st.in_table <;> cases hicb : st.in_code_block <;>
      by_cases h1 : st.current_line = "" <;>
      by_cases hcb : st.code_block_buffer = ([] : List String) <;>
      by_cases htb : st.table_buffer = ([] : List String) <;>
      simp [flush, h1, hcb, htb, hit, hicb, str_empty_append, str_append_eq_empty,
        hp, hhl]
  · intro g1 g2 g3 g4 g5
    simp [flush, g1, g2, g3, g4, g5, str_empty_append, str_append_eq_empty, hp, hhl,
      str_append_assoc]

/-- C9 (witness): `c9_claim` on a fully pending state. -/
theorem c9_witness :
    (flush idRenderers ⟨"abc", true, ["| a |", "| b |"], true, "rust", ["x", "y"], ""⟩).1 =
      some (process_markdown_line idRenderers "abc" ++ "\n" ++
        idRenderers.highlight_code_block (joinSep "\n" ["x", "y"])
          (if ("rust" : String) = "" then "text" else "rust") ++ "\n" ++
        (format_buffered_table idRenderers ["| a |", "| b |"]).1) :=
  (c9_claim idRenderers ⟨"abc", true, ["| a |", "| b |"], true, "rust", ["x", "y"], ""⟩
    (fun c l h => by
      rcases (str_append_eq_empty _ _).mp h with ⟨h1, -⟩
      rcases (str_append_eq_empty _ _).mp h1 with ⟨h2, -⟩
      rcases (str_append_eq_empty _ _).mp h2 with ⟨h3, -⟩
      exact absurd (congrArg String.data h3) (by decide))).2
    (by decide) rfl (by decide) rfl (by decide)

/-! ### Claim C10: a second flush returns None -/

/-- C10 (counterexample): `flush` does not drain the code block language
tag — after flushing an open `rust` code block the tag is still "rust" —
contradicting the claim that one flush drains the language tag. -/
theorem c10_counterexample :
    (flush idRenderers
        (process_chunk idRenderers StreamingBuffer.new "```rust\nx\n").st).2.code_block_language =
      "rust" ∧ ("rust" : String) ≠ "" := by
  decide

/-- C10 (amended): a second consecutive `flush` always returns `none` (for
every state, in particular every reachable one): one flush drains the
retained partial line, the code block log and the table row log — the
language tag is retained but can produce no further output. -/
theorem c10_claim (r r2 : Renderers) (st : StreamingBuffer) :
    (flush r2 (flush r st).2).1 = none ∧
    (flush r st).2.current_line = "" ∧
    (st.in_table = true → st.table_buffer ≠ [] → (flush r st).2.table_buffer = []) := by
  cases hit : st.in_table <;> cases hicb : st.in_code_block <;>
    by_cases h1 : st.current_line = "" <;>
    by_cases hcb : st.code_block_buffer = ([] : List String) <;>
    by_cases htb : st.table_buffer = ([] : List String) <;>
    simp [flush, h1, hcb, htb, hit, hicb, format_clears]

/-- C10 (witness): `c10_claim` on a concrete fully pending state. -/
theorem c10_witness :
    (flush idRenderers
        (flush idRenderers ⟨"abc", true, ["| a |"], true, "rust", ["x"], ""⟩).2).1 = none :=
  (c10_claim idRenderers idRenderers ⟨"abc", true, ["| a |"], true, "rust", ["x"], ""⟩).1

/-! ### Claim C3: fragmentation invariance -/

/-- C3 (counterexample): the text "ab\n" (no pipes, no fences) produces
different total output when split as ["a", "b\n"] than when fed whole: the
early-emitted prefix "a" bypasses the line formatter and only the suffix
"b" is formatted, so output is NOT invariant to fragmentation boundaries. -/
theorem c3_counterexample :
    (feed_all idRenderers StreamingBuffer.new ["a", "b\n"]).1 ++
        ((flush idRenderers (feed_all idRenderers StreamingBuffer.new ["a", "b\n"]).2).1.getD "")
      ≠
    (feed_all idRenderers StreamingBuffer.new ["ab\n"]).1 ++
        ((flush idRenderers (feed_all idRenderers StreamingBuffer.new ["ab\n"]).2).1.getD "") := by
  decide

/-- C3 (amended): for text with no pipe-start and no fence-start lines,
output IS invariant to fragmentation as long as every fragment boundary
falls on a line boundary (each fragment has an empty remainder): the
concatenated display text plus the flush result equals the line-level
formatter applied line by line to the whole text.  (Splitting inside a line
breaks the equality, as the counterexample shows.) -/
theorem c3_claim (r : Renderers) (frags : List String)
    (hrem : ∀ f ∈ frags, (splitNewlines f).2 = "")
    (hclean : ∀ f ∈ frags, ∀ l ∈ (splitNewlines f).1,
      strStartsWith (strTrim l) "|" = false ∧ strStartsWith (strTrim l) "```" = false) :
    (feed_all r StreamingBuffer.new frags).1 ++
        ((flush r (feed_all r StreamingBuffer.new frags).2).1.getD "") =
      concatStrs ((splitNewlines (concatStrs frags)).1.map (process_markdown_line r)) := by
  rw [feed_all_clean r StreamingBuffer.new frags rfl rfl rfl rfl hrem hclean]
  simp only []
  rw [flush_clean r StreamingBuffer.new rfl rfl rfl]
  simp only [Option.getD_none]
  rw [str_append_empty]
  rw [splitNewlines_concat frags hrem]
  simp only []
  rw [List.map_flatten, concatStrs_join, List.map_map, List.map_map]
  rfl

/-- C3 (witness): `c3_claim` on two concrete line-aligned fragments. -/
theorem c3_witness :
    (feed_all idRenderers StreamingBuffer.new ["hello\n", "world\nfoo\n"]).1 ++
        ((flush idRenderers
          (feed_all idRenderers StreamingBuffer.new ["hello\n", "world\nfoo\n"]).2).1.getD "") =
      concatStrs ((splitNewlines (concatStrs ["hello\n", "world\nfoo\n"])).1.map
        (process_markdown_line idRenderers)) :=
  c3_claim idRenderers ["hello\n", "world\nfoo\n"] (by decide) (by decide)

end LlmCli
